import Mathlib

/-!
# Verification of the sitemap SEO analyzer core

A shallow embedding, in Lean 4, of the core functions of the repository
(`src/app.py`, `src/sitemap_extractor.py`, `src/debug_zero_links.py`):

* domain normalization (`normalize_domain`),
* sitemap resolution from `robots.txt` (`get_sitemap_url`, both variants),
* recursive sitemap extraction (`extract_links_from_sitemap`),
* the per-page internal-link counter (`count_internal_links`),
* the batch orchestration loop over a worker pool.

Network effects are modelled as explicit environment parameters
(`String → FetchOutcome` and friends); the small subset of Python's
`urllib.parse` that the code relies on (`urljoin`, `urlparse(...).netloc`)
is modelled directly for http(s)-style URLs; Python's `str` helpers
(`splitlines`, `strip`, `split`, `replace`, `lower`) are modelled by
structural recursion over the character list, with their behaviour on the
ASCII inputs that appear here.  HTML documents are modelled as element
trees (the output of BeautifulSoup's `html.parser`, which does not
normalise the tree or synthesise missing `<body>` tags).
-/

/-- Python `s.lower()` on ASCII text. -/
def lowerStr (s : String) : String :=
  String.mk (s.data.map Char.toLower)

/-- Python `s.split('#')[0]`: the URL with its fragment stripped (used in
`count_internal_links` for the same-page-anchor comparison). -/
def pySplitHash (s : String) : String :=
  String.mk (s.data.takeWhile (fun c => c != '#'))

/-- Python `s.strip()` on ASCII text: drop leading and trailing whitespace. -/
def pyStrip (s : String) : String :=
  String.mk (((s.data.dropWhile Char.isWhitespace).reverse.dropWhile
    Char.isWhitespace).reverse)

/-- Auxiliary walk for Python `str.splitlines`: a line ends at `\n`, `\r`,
or the two-character terminator `\r\n`; text after the last terminator
forms a final line only when it is nonempty. -/
def splitlinesAux : List Char → List Char → List String
  | [], acc => if acc.isEmpty then [] else [String.mk acc.reverse]
  | '\r' :: '\n' :: rest, acc => String.mk acc.reverse :: splitlinesAux rest []
  | '\r' :: rest, acc => String.mk acc.reverse :: splitlinesAux rest []
  | '\n' :: rest, acc => String.mk acc.reverse :: splitlinesAux rest []
  | c :: rest, acc => splitlinesAux rest (c :: acc)

/-- Python `s.splitlines()`. -/
def pySplitlines (s : String) : List String :=
  splitlinesAux s.data []

/-- Python `line.split(':', 1)[1]`: everything after the first colon
(the sitemap-directive value before trimming).  The callers only reach
this after checking that the line starts with `"sitemap:"`, so a colon
is always present there. -/
def afterFirstColon (line : String) : String :=
  String.mk ((line.data.dropWhile (fun c => c != ':')).drop 1)

/-- The robots.txt line test `line.lower().startswith('sitemap:')`. -/
def isSitemapLine (line : String) : Bool :=
  "sitemap:".data.isPrefixOf (lowerStr line).data

/-- Split a character list at its first `"://"`, accumulating the scheme
in reverse in the first argument. -/
def schemeSplitAux : List Char → List Char → Option (List Char × List Char)
  | acc, ':' :: '/' :: '/' :: rest => some (acc.reverse, rest)
  | acc, c :: rest => schemeSplitAux (c :: acc) rest
  | _, [] => none

/-- Split an absolute URL at its first `"://"`, returning the scheme and
the remainder, or `none` for scheme-less references. -/
def schemeSplit (u : String) : Option (String × String) :=
  match schemeSplitAux [] u.data with
  | some (s, r) => some (String.mk s, String.mk r)
  | none => none

/-- The authority component: the prefix of the post-scheme remainder up to
the first `/`, `?` or `#`. -/
def takeNetloc (r : String) : String :=
  String.mk (r.data.takeWhile (fun c => !(c == '/' || c == '?' || c == '#')))

/-- `urlparse(u).netloc` for the URL shapes produced by `urljoin` here. -/
def urlNetloc (u : String) : String :=
  match schemeSplit u with
  | some (_, r) => takeNetloc r
  | none =>
    if ['/', '/'].isPrefixOf u.data then takeNetloc (String.mk (u.data.drop 2))
    else ""

/-- `f"{parsed.scheme}://{parsed.netloc}"` as computed by both resolver
variants from the base URL. -/
def urlDomain (u : String) : String :=
  match schemeSplit u with
  | some (s, r) => s ++ "://" ++ takeNetloc r
  | none => "://"

/-- The path component of the post-scheme remainder. -/
def pathOf (r : String) : String :=
  String.mk ((r.data.drop (takeNetloc r).data.length).takeWhile
    (fun c => !(c == '?' || c == '#')))

/-- The directory of a path: everything up to and including the last `/`
(`/` itself when the path contains no slash at all). -/
def dirOf (p : String) : String :=
  match (p.data.reverse.dropWhile (fun c => c != '/')).reverse with
  | [] => "/"
  | d => String.mk d

/-- `urllib.parse.urljoin(base, href)` restricted to the http(s)-style
URL shapes this program produces: absolute hrefs, protocol-relative
hrefs, root-relative hrefs, bare-fragment hrefs and plain relative paths
(no `.`/`..` segment normalisation). -/
def urljoin (base href : String) : String :=
  if href = "" then base
  else if (schemeSplit href).isSome then href
  else if ['/', '/'].isPrefixOf href.data then
    match schemeSplit base with
    | some (s, _) => s ++ ":" ++ href
    | none => href
  else
    match schemeSplit base with
    | none => href
    | some (s, r) =>
      let netloc := takeNetloc r
      if ['/'].isPrefixOf href.data then s ++ "://" ++ netloc ++ href
      else if ['#'].isPrefixOf href.data then pySplitHash base ++ href
      else s ++ "://" ++ netloc ++ dirOf (pathOf r) ++ href

/-- Drop the pattern from the front of a character list, or `none` when it
is not a prefix. -/
def dropPat : List Char → List Char → Option (List Char)
  | [], s => some s
  | _ :: _, [] => none
  | p :: ps, c :: cs => if p == c then dropPat ps cs else none

/-- Fuel-indexed scan for Python `s.replace(pat, '')` with a nonempty
pattern: at each position either delete one occurrence of the pattern and
continue after it, or keep the character and move on.  The fuel is the
length of the scanned list, which bounds the number of steps. -/
def replaceDelAux (pat : List Char) : Nat → List Char → List Char
  | 0, s => s
  | _ + 1, [] => []
  | n + 1, c :: cs =>
    match dropPat pat (c :: cs) with
    | some rest => replaceDelAux pat n rest
    | none => c :: replaceDelAux pat n cs

/-- Python `s.replace(pat, '')` for a nonempty pattern: every occurrence
of `pat`, scanned left to right without overlap, is removed. -/
def pyReplaceDel (s pat : String) : String :=
  String.mk (replaceDelAux pat.data s.data.length s.data)

/-- `normalize_domain` from `src/app.py` (and, identically, from
`src/debug_zero_links.py`): empty check, then
`domain.lower().replace('www.', '')`.  Note that Python's `replace`
removes every occurrence of the pattern, not only a leading one. -/
def normalize_domain (domain : String) : String :=
  if domain = "" then "" else pyReplaceDel (lowerStr domain) "www."

/-! ## HTML documents

BeautifulSoup with the `html.parser` builder parses a page into a tree of
tags and text without normalising it (no implied `<html>`/`<body>` tags).
A parsed document is a list of top-level nodes, written with the mutual
type `HtmlList` so that all tree recursions are structural. -/

mutual
/-- A parsed HTML node: an element with a tag name, attributes and
children, or a text node. -/
inductive Html where
  | elem (tag : String) (attrs : List (String × String)) (children : HtmlList)
  | text (s : String)

/-- A list of sibling HTML nodes. -/
inductive HtmlList where
  | nil
  | cons (h : Html) (t : HtmlList)
end

mutual
/-- `soup.find(t)` within a single subtree: the node itself when its tag
is `t`, else the first match among its descendants in document order. -/
def findTagH (t : String) : Html → Option Html
  | .elem tg a ch => if tg = t then some (.elem tg a ch) else findTagL t ch
  | .text _ => none

/-- `soup.find(t)` over a list of sibling subtrees, in document order. -/
def findTagL (t : String) : HtmlList → Option Html
  | .nil => none
  | .cons h rest =>
    match findTagH t h with
    | some r => some r
    | none => findTagL t rest
end

/-- Attribute lookup, first binding wins (as `tag['href']` does). -/
def getAttr (name : String) : List (String × String) → Option String
  | [] => none
  | (k, v) :: rest => if k = name then some v else getAttr name rest

/-- The contribution of one element to `find_all('a', href=True)`: its
href value when it is an `<a>` carrying an `href` attribute. -/
def linkEntry (tag : String) (attrs : List (String × String)) : List String :=
  if tag = "a" then
    match getAttr "href" attrs with
    | some v => [v]
    | none => []
  else []

mutual
/-- The href values of all `<a href=...>` elements of a subtree, the root
included, in document order. -/
def hrefsH : Html → List String
  | .elem t a ch => linkEntry t a ++ hrefsL ch
  | .text _ => []

/-- The href values of all `<a href=...>` elements of a list of sibling
subtrees, in document order. -/
def hrefsL : HtmlList → List String
  | .nil => []
  | .cons h rest => hrefsH h ++ hrefsL rest
end

/-- `content_area.find_all('a', href=True)`: `find_all` searches the
descendants of the node it is called on, not the node itself. -/
def pageHrefs : Html → List String
  | .elem _ _ ch => hrefsL ch
  | .text _ => []

/-- The exclusion tag list of `count_internal_links`. -/
def exclude_tags : List String :=
  ["nav", "header", "footer", "aside", "form", "script", "style"]

/-- Whether a node is an element carrying one of the excluded tags. -/
def isExcluded : Html → Bool
  | .elem t _ _ => t ∈ exclude_tags
  | .text _ => false

mutual
/-- The effect of `for tag in content_area.find_all(exclude_tags):
tag.decompose()` on the content area: the root is kept (`find_all` only
searches descendants, and the content area's tag is `article`, `main` or
`body`), and every descendant element whose tag is in `exclude_tags` is
removed together with its whole subtree. -/
def pruneH : Html → Html
  | .elem t a ch => .elem t a (pruneL ch)
  | .text s => .text s

/-- Decomposition of excluded elements over a list of sibling subtrees. -/
def pruneL : HtmlList → HtmlList
  | .nil => .nil
  | .cons h rest =>
    if isExcluded h then pruneL rest else .cons (pruneH h) (pruneL rest)
end

mutual
/-- Reference collector for the exclusion property: gather href values in
document order but contribute nothing from any subtree whose root is an
excluded element. -/
def skipHrefsH : Html → List String
  | .elem t a ch =>
    if t ∈ exclude_tags then [] else linkEntry t a ++ skipHrefsL ch
  | .text _ => []

/-- The reference collector over a list of sibling subtrees. -/
def skipHrefsL : HtmlList → List String
  | .nil => []
  | .cons h rest => skipHrefsH h ++ skipHrefsL rest
end

/-- The reference collector at the content-area root (descendants only,
the root itself is never excluded). -/
def skipPageHrefs : Html → List String
  | .elem _ _ ch => skipHrefsL ch
  | .text _ => []

/-! ## The per-page internal-link counter -/

/-- The outcome of `requests.get(page_url)` followed by parsing: a raised
exception, or a response with a status code and the parsed document. -/
inductive FetchOutcome where
  | error
  | ok (status : Nat) (doc : HtmlList)

/-- The content-area heuristic of `count_internal_links`: an `<article>`
element if present, else a `<main>` element, else the `<body>` element. -/
def contentArea (doc : HtmlList) : Option Html :=
  match findTagL "article" doc with
  | some a => some a
  | none =>
    match findTagL "main" doc with
    | some m => some m
    | none => findTagL "body" doc

/-- Python `set.add`: a set modelled as a duplicate-free list, insertion
keeps the list unchanged when the element is already present. -/
def insertNew (s : List String) (x : String) : List String :=
  if x ∈ s then s else s ++ [x]

/-- The body of the link loop in `count_internal_links`: resolve the href
against the page URL, normalize its host, and add the full resolved URL
to the set when the host is a target domain and the link is not a
same-page anchor. -/
def addLink (pageUrl : String) (targets : List String) (s : List String)
    (href : String) : List String :=
  let fullUrl := urljoin pageUrl href
  let linkDomain := normalize_domain (urlNetloc fullUrl)
  if linkDomain ∈ targets then
    if pySplitHash fullUrl ≠ pySplitHash pageUrl then insertNew s fullUrl else s
  else s

/-- The test applied to one href by the loop, returning the URL the loop
would insert: the resolved absolute URL, when its normalized host is in
the target set and it is not a same-page anchor. -/
def qualifies (pageUrl : String) (targets : List String) (href : String) :
    Option String :=
  let fullUrl := urljoin pageUrl href
  if normalize_domain (urlNetloc fullUrl) ∈ targets ∧
      pySplitHash fullUrl ≠ pySplitHash pageUrl then
    some fullUrl
  else none

/-- `count_internal_links` from `src/app.py`: fetch the page (the network
is the explicit `env` parameter), bail out to 0 on an exception or a
non-200 status, pick the content area (`article` / `main` / `body`, else
return 0), decompose the excluded regions, collect the remaining
`<a href=...>` descendants, and return the size of the set of qualifying
resolved URLs.  The target set is modelled as a list queried only by
membership. -/
def count_internal_links (env : String → FetchOutcome) (pageUrl : String)
    (targets : List String) : Nat :=
  match env pageUrl with
  | .error => 0
  | .ok status doc =>
    if status ≠ 200 then 0
    else
      match contentArea doc with
      | none => 0
      | some area =>
        ((pageHrefs (pruneH area)).foldl (addLink pageUrl targets) []).length

/-! ## Sitemap extraction

`extract_links_from_sitemap` (present in `src/app.py` and, with the same
control flow, in `src/sitemap_extractor.py`) fetches a sitemap URL and
recurses through `<sitemap><loc>` entries of sitemap-index documents.
The network and the XML parser are modelled together as an environment
`String → Option XmlDoc`, where `none` stands for any of the conditions
the code converts into an empty result (request exception, non-200
status, or `ET.ParseError`).  The recursion of the Python function is
unbounded; it is embedded with an explicit recursion-depth fuel, and
`none` as a result means the call tree exceeds every bound, i.e. the
Python original never returns. -/

/-- A parsed sitemap document: a sitemap index whose `<sitemap>` entries
each carry an optional `<loc>` URL, or a leaf sitemap whose `<url>`
entries each carry an optional `<loc>` URL.  (The code distinguishes the
two by `root.tag.endswith('sitemapindex')`.) -/
inductive XmlDoc where
  | index (entries : List (Option String))
  | leaf (entries : List (Option String))

/-- The `links.extend(extract_links_from_sitemap(loc.text))` loop over the
`<sitemap><loc>` entries of an index, sequencing the recursive calls:
the concatenation of the per-child results, or `none` as soon as one
child's recursion exceeds the depth bound. -/
def extractChildren (f : String → Option (List String)) :
    List String → Option (List String)
  | [] => some []
  | u :: us =>
    match f u, extractChildren f us with
    | some l, some ls => some (l ++ ls)
    | _, _ => none

/-- `extract_links_from_sitemap`, fuel-indexed: on a fetch/parse failure
return `[]`; on a leaf sitemap return the `<loc>` texts of its `<url>`
entries in document order, skipping entries without a `<loc>`; on a
sitemap index recurse into each `<sitemap><loc>` entry and concatenate
the results in document order.  `none` means the recursion does not
finish within the given depth. -/
def extract_links_from_sitemap (env : String → Option XmlDoc) :
    Nat → String → Option (List String)
  | 0, _ => none
  | n + 1, url =>
    match env url with
    | none => some []
    | some (.leaf es) => some (es.filterMap id)
    | some (.index es) =>
      extractChildren (fun u => extract_links_from_sitemap env n u)
        (es.filterMap id)

mutual
/-- A finite, acyclic sitemap tree: the shape a well-formed nest of
sitemap-index documents describes. -/
inductive SitemapTree where
  | leaf (entries : List (Option String))
  | index (children : TreeList)

/-- A list of sibling sitemap trees (the sub-sitemaps of an index, in
document order). -/
inductive TreeList where
  | nil
  | cons (t : SitemapTree) (ts : TreeList)
end

mutual
/-- The specification-level reading of a sitemap tree: the concatenation,
in document order, of all leaf `<url><loc>` values across the tree, with
`<url>` entries lacking a `<loc>` omitted and no deduplication. -/
def treeLinks : SitemapTree → List String
  | .leaf es => es.filterMap id
  | .index ts => linksCat ts

/-- The concatenated links of an index's children, in document order. -/
def linksCat : TreeList → List String
  | .nil => []
  | .cons t ts => treeLinks t ++ linksCat ts
end

mutual
/-- The nesting depth of a sitemap tree. -/
def treeDepth : SitemapTree → Nat
  | .leaf _ => 0
  | .index ts => depthL ts + 1

/-- The maximal nesting depth among sibling sitemap trees. -/
def depthL : TreeList → Nat
  | .nil => 0
  | .cons t ts => max (treeDepth t) (depthL ts)
end

mutual
/-- `Represents env url t`: under environment `env`, fetching `url` yields
the acyclic sitemap tree `t` — a leaf URL parses as a leaf document with
the same entries, and an index URL parses as an index document whose
present `<loc>` entries represent the children of `t` in order. -/
def Represents (env : String → Option XmlDoc) : String → SitemapTree → Prop
  | url, .leaf es => env url = some (.leaf es)
  | url, .index ts =>
    match env url with
    | some (.index es) => RepList env (es.filterMap id) ts
    | _ => False

/-- The sub-sitemap URLs of an index represent its children pointwise. -/
def RepList (env : String → Option XmlDoc) : List String → TreeList → Prop
  | [], .nil => True
  | u :: us, .cons t ts => Represents env u t ∧ RepList env us ts
  | _, .nil => False
  | [], .cons _ _ => False
end

/-- Divergence of the extraction recursion at a URL: the fuel-indexed
embedding returns `none` for every recursion-depth bound, i.e. the
unbounded Python recursion never returns there. -/
def ExtractDiverges (env : String → Option XmlDoc) (url : String) : Prop :=
  ∀ n : Nat, extract_links_from_sitemap env n url = none

/-! ## Sitemap resolution

Both resolver variants first derive `f"{scheme}://{netloc}"` from the
base URL, fetch `{domain}/robots.txt`, and scan its lines for the first
`Sitemap:` directive.  `src/app.py` then falls back to probing three
conventional paths with HEAD requests and returns `None` when all fail;
`src/sitemap_extractor.py` instead returns the unverified
`urljoin(domain, '/sitemap.xml')` guess unconditionally.  GET responses
are modelled as `Option (Nat × String)` (status and body, `none` for a
raised `requests.RequestException`) and HEAD responses as `Option Nat`. -/

/-- The `robots.txt` URL both variants fetch. -/
def robotsUrl (base_url : String) : String :=
  urljoin (urlDomain base_url) "/robots.txt"

/-- The first `Sitemap:` directive of a robots.txt body: scan the lines in
order for `line.lower().startswith('sitemap:')` and return
`line.split(':', 1)[1].strip()` for the first hit. -/
def firstSitemapDirective (body : String) : Option String :=
  ((pySplitlines body).find? isSitemapLine).map
    (fun l => pyStrip (afterFirstColon l))

/-- The shared robots.txt phase: on a 200 response scan for a directive;
any other status, or a raised exception, yields nothing. -/
def robotsDirective (get : String → Option (Nat × String))
    (base_url : String) : Option String :=
  match get (robotsUrl base_url) with
  | some (st, body) => if st = 200 then firstSitemapDirective body else none
  | none => none

/-- The conventional fallback paths probed by `src/app.py`. -/
def common_paths : List String :=
  ["/sitemap.xml", "/sitemap_index.xml", "/wp-sitemap.xml"]

/-- `get_sitemap_url` from `src/app.py`: the robots.txt directive when one
is found; otherwise the first of the three conventional paths whose HEAD
request returns 200 (an exception counting as a failed probe); otherwise
`none`. -/
def get_sitemap_url (get : String → Option (Nat × String))
    (head : String → Option Nat) (base_url : String) : Option String :=
  match robotsDirective get base_url with
  | some u => some u
  | none =>
    match common_paths.find?
        (fun p => head (urljoin (urlDomain base_url) p) == some 200) with
    | some p => some (urljoin (urlDomain base_url) p)
    | none => none

/-- `get_sitemap_url` from `src/sitemap_extractor.py`: the robots.txt
directive when one is found; otherwise the unverified
`urljoin(domain, '/sitemap.xml')` guess, with no probing and no failure
result. -/
def se_get_sitemap_url (get : String → Option (Nat × String))
    (base_url : String) : String :=
  match robotsDirective get base_url with
  | some u => u
  | none => urljoin (urlDomain base_url) "/sitemap.xml"

/-! ## The analysis batch

The "Analyze Internal Links" handler of `src/app.py` submits one
`count_internal_links` task per sitemap URL to a `ThreadPoolExecutor`
(`future_to_url` maps each future to its URL; duplicated URLs get their
own futures), then drains `concurrent.futures.as_completed`, appending
`{"URL": url, "Internal Links": future.result()}` per future and
`{"URL": url, "Internal Links": 0}` when `future.result()` re-raises an
exception.  The pool is modelled by the list of submitted tasks
`urls.enum` (index = future identity), an arbitrary completion order
(any permutation of the submitted tasks), and a task-outcome map. -/

/-- One iteration of the `as_completed` drain loop: the result row for a
completed future, an exception being recorded as a zero count. -/
def batchEntry (outcome : Nat → Except Unit Nat) (p : Nat × String) :
    String × Nat :=
  (p.2, match outcome p.1 with | .ok n => n | .error _ => 0)

/-- The whole drain loop: one result row per completed future, in
completion order. -/
def runBatch (outcome : Nat → Except Unit Nat)
    (completed : List (Nat × String)) : List (String × Nat) :=
  completed.map (batchEntry outcome)

/-! ## Concrete instances

Small concrete pages, sitemap environments and resolver environments used
to instantiate the theorems below. -/

/-- A page whose content region holds two links to the same URL up to the
fragment: `/p2#a` and `/p2#b`. -/
def fragPageDoc : HtmlList :=
  .cons (.elem "html" [] (.cons (.elem "body" []
    (.cons (.elem "a" [("href", "https://e.com/p2#a")] .nil)
    (.cons (.elem "a" [("href", "https://e.com/p2#b")] .nil) .nil))) .nil)) .nil

/-- The `<body>` element of `fragPageDoc`. -/
def fragPageBody : Html :=
  .elem "body"
    [] (.cons (.elem "a" [("href", "https://e.com/p2#a")] .nil)
    (.cons (.elem "a" [("href", "https://e.com/p2#b")] .nil) .nil))

/-- A network serving `fragPageDoc` at `https://e.com/p1`. -/
def fragPageEnv : String → FetchOutcome := fun u =>
  if u = "https://e.com/p1" then .ok 200 fragPageDoc else .error

/-- A document with an `<article>` (holding one internal link) and no
`<body>` element anywhere, as `html.parser` yields for a body-less
fragment. -/
def articleNoBodyDoc : HtmlList :=
  .cons (.elem "article" []
    (.cons (.elem "a" [("href", "https://e.com/x")] .nil) .nil)) .nil

/-- A network serving `articleNoBodyDoc` at `https://e.com/p`. -/
def articleNoBodyEnv : String → FetchOutcome := fun u =>
  if u = "https://e.com/p" then .ok 200 articleNoBodyDoc else .error

/-- A page whose `<article>` holds one direct link and a `<nav>` region
containing another link to the same target domain. -/
def navInArticleDoc : HtmlList :=
  .cons (.elem "body" [] (.cons (.elem "article" []
    (.cons (.elem "a" [("href", "https://e.com/keep")] .nil)
    (.cons (.elem "nav" []
      (.cons (.elem "a" [("href", "https://e.com/drop")] .nil) .nil)) .nil)))
    .nil)) .nil

/-- The `<article>` element of `navInArticleDoc`. -/
def navInArticleArea : Html :=
  .elem "article"
    [] (.cons (.elem "a" [("href", "https://e.com/keep")] .nil)
    (.cons (.elem "nav" []
      (.cons (.elem "a" [("href", "https://e.com/drop")] .nil) .nil)) .nil))

/-- A network serving `navInArticleDoc` at `https://e.com/page`. -/
def navInArticleEnv : String → FetchOutcome := fun u =>
  if u = "https://e.com/page" then .ok 200 navInArticleDoc else .error

/-- A self-referential sitemap environment: every URL parses as a sitemap
index whose single entry points back at a sitemap URL. -/
def cyclicSitemapEnv : String → Option XmlDoc := fun _ =>
  some (.index [some "https://x.test/sitemap.xml"])

/-- A two-leaf sitemap index environment: the index lists two leaf
sitemaps (plus one `<sitemap>` entry without a `<loc>`); the first leaf
has URLs `a`, `b` (plus a `<url>` entry without a `<loc>`), the second
has `b`, `c`, `d`.  `b` appears in both leaves. -/
def twoLeafSitemapEnv : String → Option XmlDoc := fun u =>
  if u = "https://x.test/sitemap_index.xml" then
    some (.index [some "https://x.test/s1.xml", none,
      some "https://x.test/s2.xml"])
  else if u = "https://x.test/s1.xml" then
    some (.leaf [some "https://x.test/a", none, some "https://x.test/b"])
  else if u = "https://x.test/s2.xml" then
    some (.leaf [some "https://x.test/b", some "https://x.test/c",
      some "https://x.test/d"])
  else none

/-- The sitemap tree served by `twoLeafSitemapEnv`. -/
def twoLeafTree : SitemapTree :=
  .index (.cons (.leaf [some "https://x.test/a", none, some "https://x.test/b"])
    (.cons (.leaf [some "https://x.test/b", some "https://x.test/c",
      some "https://x.test/d"]) .nil))

/-- A one-leaf sitemap environment. -/
def oneLeafSitemapEnv : String → Option XmlDoc := fun u =>
  if u = "https://z.test/sitemap.xml" then some (.leaf [some "https://z.test/p"])
  else none

/-- The sitemap tree served by `oneLeafSitemapEnv`. -/
def oneLeafTree : SitemapTree := .leaf [some "https://z.test/p"]

/-- A robots.txt server declaring a sitemap directive. -/
def robotsWithDirective : String → Option (Nat × String) := fun u =>
  if u = "https://x.test/robots.txt" then
    some (200, "User-agent: *\nSitemap: https://x.test/custom.xml\n")
  else none

/-- A robots.txt server declaring a non-standard sitemap URL (used for
the variant-agreement instance). -/
def robotsWithDirective2 : String → Option (Nat × String) := fun u =>
  if u = "https://y.test/robots.txt" then
    some (200, "Sitemap: https://y.test/s.xml")
  else none

/-- A robots.txt server that answers 404 everywhere. -/
def robotsAll404 : String → Option (Nat × String) := fun _ => some (404, "")

/-- A HEAD prober whose every request raises. -/
def headAllFail : String → Option Nat := fun _ => none

/-- A page environment for the determinism instance. -/
def detPageEnv : String → FetchOutcome := fun u =>
  if u = "https://e.com/d" then
    .ok 200 (.cons (.elem "body" []
      (.cons (.elem "a" [("href", "/other")] .nil) .nil)) .nil)
  else .error

/-- The submitted URL list of the batch instance (one URL twice). -/
def batchUrls : List String :=
  ["https://e.com/a", "https://e.com/b", "https://e.com/a"]

/-- Task outcomes of the batch instance: the second task raises. -/
def batchOutcome : Nat → Except Unit Nat := fun i =>
  if i = 1 then .error () else .ok 7

/-- A completion order of the batch instance: a permutation of the
submitted tasks `batchUrls.enum`. -/
def batchCompleted : List (Nat × String) :=
  [(2, "https://e.com/a"), (0, "https://e.com/a"), (1, "https://e.com/b")]

/-! ## Helper lemmas -/

/-- One loop iteration either inserts the qualifying URL or leaves the
set unchanged. -/
theorem addLink_eq_qualifies (pageUrl : String) (targets : List String)
    (s : List String) (href : String) :
    addLink pageUrl targets s href =
      match qualifies pageUrl targets href with
      | some u => insertNew s u
      | none => s := by
  unfold addLink qualifies
  by_cases h1 : normalize_domain (urlNetloc (urljoin pageUrl href)) ∈ targets
  · by_cases h2 : pySplitHash (urljoin pageUrl href) ≠ pySplitHash pageUrl
    · simp [h1, h2]
    · simp [h1, h2]
  · simp [h1]

/-- The link loop over a list of hrefs is the set-insertion fold over the
qualifying URLs. -/
theorem foldl_addLink_eq (pageUrl : String) (targets : List String) :
    ∀ (l : List String) (s : List String),
      l.foldl (addLink pageUrl targets) s =
        (l.filterMap (qualifies pageUrl targets)).foldl insertNew s := by
  intro l
  induction l with
  | nil => intro s; rfl
  | cons href rest ih =>
    intro s
    rw [List.foldl_cons, List.filterMap_cons, addLink_eq_qualifies]
    cases qualifies pageUrl targets href with
    | some u => rw [List.foldl_cons]; exact ih _
    | none => exact ih _

/-- Set insertion preserves freedom from duplicates. -/
theorem insertNew_nodup {s : List String} (hs : s.Nodup) (x : String) :
    (insertNew s x).Nodup := by
  unfold insertNew
  by_cases hx : x ∈ s
  · simpa [hx]
  · rw [if_neg hx]
    exact (List.perm_append_singleton x s).nodup_iff.mpr
      (List.nodup_cons.mpr ⟨hx, hs⟩)

/-- The elements of a set after insertion. -/
theorem insertNew_toFinset (s : List String) (x : String) :
    (insertNew s x).toFinset = insert x s.toFinset := by
  unfold insertNew
  by_cases hx : x ∈ s
  · simp [hx, Finset.insert_eq_self.mpr (List.mem_toFinset.mpr hx)]
  · simp [hx, Finset.union_comm, Finset.insert_eq]

/-- Folding set insertion preserves freedom from duplicates. -/
theorem foldl_insertNew_nodup :
    ∀ (l : List String) (s : List String), s.Nodup →
      (l.foldl insertNew s).Nodup := by
  intro l
  induction l with
  | nil => intro s hs; exact hs
  | cons x rest ih => intro s hs; exact ih _ (insertNew_nodup hs x)

/-- The elements of a set built by folding insertion. -/
theorem foldl_insertNew_toFinset :
    ∀ (l : List String) (s : List String),
      (l.foldl insertNew s).toFinset = s.toFinset ∪ l.toFinset := by
  intro l
  induction l with
  | nil => intro s; simp
  | cons x rest ih =>
    intro s
    rw [List.foldl_cons, ih, insertNew_toFinset]
    simp [Finset.insert_union, Finset.union_insert]

/-- The size of the set built by the link loop is the number of distinct
qualifying URLs. -/
theorem foldl_insertNew_length (l : List String) :
    (l.foldl insertNew []).length = l.toFinset.card := by
  have hnd := foldl_insertNew_nodup l [] List.nodup_nil
  have hfs := foldl_insertNew_toFinset l []
  calc (l.foldl insertNew []).length
      = (l.foldl insertNew []).toFinset.card := (List.toFinset_card_of_nodup hnd).symm
    _ = l.toFinset.card := by rw [hfs]; simp

mutual
/-- Collecting hrefs after decomposition, on a non-excluded node, equals
collecting while skipping excluded subtrees. -/
theorem hrefsH_pruneH (h : Html) (hx : isExcluded h = false) :
    hrefsH (pruneH h) = skipHrefsH h :=
  match h, hx with
  | .elem t a ch, hx => by
    have ht : t ∉ exclude_tags := by
      simpa [isExcluded] using hx
    show linkEntry t a ++ hrefsL (pruneL ch) = skipHrefsH (.elem t a ch)
    rw [hrefsL_pruneL ch]
    simp [skipHrefsH, ht]
  | .text s, _ => rfl

/-- Collecting hrefs after decomposition of a sibling list equals
collecting while skipping excluded subtrees. -/
theorem hrefsL_pruneL (ns : HtmlList) :
    hrefsL (pruneL ns) = skipHrefsL ns :=
  match ns with
  | .nil => rfl
  | .cons h rest => by
    show hrefsL (if isExcluded h then pruneL rest
      else .cons (pruneH h) (pruneL rest)) = skipHrefsH h ++ skipHrefsL rest
    by_cases hx : isExcluded h = true
    · have hskip : skipHrefsH h = [] := by
        cases h with
        | elem t a ch =>
          have : t ∈ exclude_tags := by simpa [isExcluded] using hx
          simp [skipHrefsH, this]
        | text s => rfl
      rw [if_pos hx, hrefsL_pruneL rest, hskip, List.nil_append]
    · have hx' : isExcluded h = false := by simpa using hx
      rw [if_neg (by simp [hx']), show hrefsL (.cons (pruneH h) (pruneL rest))
          = hrefsH (pruneH h) ++ hrefsL (pruneL rest) from rfl,
        hrefsH_pruneH h hx', hrefsL_pruneL rest]
end

/-- At the content-area root (descendants only), decomposition followed by
collection equals collection that skips excluded subtrees. -/
theorem pageHrefs_pruneH (area : Html) :
    pageHrefs (pruneH area) = skipPageHrefs area := by
  cases area with
  | elem t a ch =>
    show hrefsL (pruneL ch) = skipHrefsL ch
    exact hrefsL_pruneL ch
  | text s => rfl

/-- One loop iteration depends on the target list only through
membership. -/
theorem addLink_congr (pageUrl : String) {t₁ t₂ : List String}
    (ht : ∀ d, d ∈ t₁ ↔ d ∈ t₂) (s : List String) (href : String) :
    addLink pageUrl t₁ s href = addLink pageUrl t₂ s href := by
  unfold addLink
  by_cases h1 : normalize_domain (urlNetloc (urljoin pageUrl href)) ∈ t₁
  · rw [if_pos h1, if_pos ((ht _).mp h1)]
  · rw [if_neg h1, if_neg (fun hc => h1 ((ht _).mpr hc))]

/-- The link loop depends on the target list only through membership. -/
theorem foldl_addLink_congr (pageUrl : String) {t₁ t₂ : List String}
    (ht : ∀ d, d ∈ t₁ ↔ d ∈ t₂) :
    ∀ (l : List String) (s : List String),
      l.foldl (addLink pageUrl t₁) s = l.foldl (addLink pageUrl t₂) s := by
  intro l
  induction l with
  | nil => intro s; rfl
  | cons href rest ih =>
    intro s
    rw [List.foldl_cons, List.foldl_cons, addLink_congr pageUrl ht]
    exact ih _

mutual
/-- With fuel exceeding the tree depth, extraction from a URL that
represents an acyclic sitemap tree returns exactly the tree's leaf
`<loc>` concatenation. -/
theorem extract_aux (env : String → Option XmlDoc) (n : Nat) (url : String)
    (t : SitemapTree) (h : Represents env url t) (hn : treeDepth t < n) :
    extract_links_from_sitemap env n url = some (treeLinks t) :=
  match t, h with
  | .leaf es, h => by
    have henv : env url = some (.leaf es) := h
    obtain ⟨m, rfl⟩ : ∃ m, n = m + 1 := ⟨n - 1, by omega⟩
    simp [extract_links_from_sitemap, henv, treeLinks]
  | .index ts, h => by
    have h' : (match env url with
      | some (.index es) => RepList env (es.filterMap id) ts
      | _ => False) := h
    cases hu : env url with
    | none => rw [hu] at h'; exact h'.elim
    | some doc =>
      cases doc with
      | leaf es => rw [hu] at h'; exact h'.elim
      | index es =>
        rw [hu] at h'
        have hrep : RepList env (List.filterMap id es) ts := h'
        have hdeq : treeDepth (SitemapTree.index ts) = depthL ts + 1 := rfl
        obtain ⟨m, rfl⟩ : ∃ m, n = m + 1 := ⟨n - 1, by omega⟩
        have hdm : depthL ts < m := by rw [hdeq] at hn; omega
        simp [extract_links_from_sitemap, hu,
          extract_auxL env m (List.filterMap id es) ts hrep hdm, treeLinks]

/-- With fuel exceeding every sibling's depth, the child walk over the
sub-sitemap URLs of an index returns the concatenated child links. -/
theorem extract_auxL (env : String → Option XmlDoc) (m : Nat)
    (locs : List String) (ts : TreeList) (h : RepList env locs ts)
    (hd : depthL ts < m) :
    extractChildren (fun u => extract_links_from_sitemap env m u) locs =
      some (linksCat ts) :=
  match locs, ts, h with
  | [], .nil, _ => rfl
  | u :: us, .cons t ts', h => by
    have h' : Represents env u t ∧ RepList env us ts' := h
    have hd' : max (treeDepth t) (depthL ts') < m := hd
    simp [extractChildren,
      extract_aux env m u t h'.1 (lt_of_le_of_lt (le_max_left _ _) hd'),
      extract_auxL env m us ts' h'.2 (lt_of_le_of_lt (le_max_right _ _) hd'),
      linksCat]
  | [], .cons _ _, h => h.elim
  | _ :: _, .nil, h => h.elim
end

/-! ## Claim theorems -/

/-- **C1** (amended): `count_internal_links` deduplicates qualifying links
by their *full* resolved URL, fragment included: each qualifying href is
resolved to an absolute URL and that URL — not its fragment-stripped
form — is added to the per-page set, and the returned count is the
cardinality of that set.  Two distinct hrefs resolving to the same
absolute URL count once, but two hrefs resolving to the same URL
*ignoring fragments* while differing in fragment count separately. -/
theorem count_internal_links_card_full_urls
    (env : String → FetchOutcome) (pageUrl : String) (targets : List String)
    (doc : HtmlList) (area : Html)
    (hfetch : env pageUrl = .ok 200 doc)
    (harea : contentArea doc = some area) :
    count_internal_links env pageUrl targets =
      ((pageHrefs (pruneH area)).filterMap
        (qualifies pageUrl targets)).toFinset.card := by
  unfold count_internal_links
  rw [hfetch]
  simp only [harea]
  rw [foldl_addLink_eq, foldl_insertNew_length]
  simp

/-- Witness for **C1**: a concrete page, with the hypotheses evaluated. -/
theorem count_internal_links_card_full_urls_witness :
    fragPageEnv "https://e.com/p1" = .ok 200 fragPageDoc ∧
    contentArea fragPageDoc = some fragPageBody ∧
    count_internal_links fragPageEnv "https://e.com/p1" ["e.com"] =
      ((pageHrefs (pruneH fragPageBody)).filterMap
        (qualifies "https://e.com/p1" ["e.com"])).toFinset.card :=
  ⟨rfl, rfl, count_internal_links_card_full_urls fragPageEnv "https://e.com/p1"
    ["e.com"] fragPageDoc fragPageBody rfl rfl⟩

/-- Counterexample for **C1** as stated: on a page with two qualifying
hrefs `…/p2#a` and `…/p2#b` that resolve to the same absolute URL
ignoring fragments, the code counts 2, while the set of fragment-stripped
qualifying URLs has exactly one element. -/
theorem count_internal_links_fragment_counterexample :
    count_internal_links fragPageEnv "https://e.com/p1" ["e.com"] = 2 ∧
    (((pageHrefs (pruneH fragPageBody)).filterMap
        (qualifies "https://e.com/p1" ["e.com"])).map pySplitHash).toFinset.card
      = 1 :=
  ⟨by decide, by decide⟩

/-- **C2** (amended): domain normalization lower-cases the host and
removes *every* occurrence of the substring `"www."`, not only a leading
prefix.  `www.Example.com`, `example.com` and `EXAMPLE.COM` all
normalize to `example.com`; a host with an interior `www.` label, such
as `blog.www.example.com`, also has that label removed. -/
theorem normalize_domain_removes_every_www :
    normalize_domain "www.Example.com" = "example.com" ∧
    normalize_domain "example.com" = "example.com" ∧
    normalize_domain "EXAMPLE.COM" = "example.com" ∧
    normalize_domain "blog.www.example.com" = "blog.example.com" ∧
    normalize_domain "www.www.example.com" = "example.com" := by
  decide

/-- Counterexample for **C2** as stated: `blog.www.example.com` is
already lower-case and does not start with `www.`, so a normalization
that only strips a leading `www.` prefix would leave it unchanged, yet
`normalize_domain` removes its interior `www.` label. -/
theorem normalize_domain_not_only_leading :
    normalize_domain "blog.www.example.com" = "blog.example.com" ∧
    lowerStr "blog.www.example.com" = "blog.www.example.com" ∧
    "www.".data.isPrefixOf "blog.www.example.com".data = false ∧
    "blog.example.com" ≠ "blog.www.example.com" := by
  decide

/-- **C3** (amended): `extract_links_from_sitemap` terminates on every
*acyclic* sitemap tree — fuel exceeding the tree's nesting depth
suffices — but it has no guard against self-referential indices; on a
cyclic index the recursion exceeds every depth bound (see the
counterexample). -/
theorem extract_links_terminates_on_acyclic (env : String → Option XmlDoc)
    (url : String) (t : SitemapTree) (h : Represents env url t) :
    (extract_links_from_sitemap env (treeDepth t + 1) url).isSome := by
  rw [extract_aux env (treeDepth t + 1) url t h (Nat.lt_succ_self _)]
  rfl

/-- Witness for **C3**: a one-leaf sitemap environment. -/
theorem extract_links_terminates_on_acyclic_witness :
    Represents oneLeafSitemapEnv "https://z.test/sitemap.xml" oneLeafTree ∧
    (extract_links_from_sitemap oneLeafSitemapEnv (treeDepth oneLeafTree + 1)
      "https://z.test/sitemap.xml").isSome :=
  ⟨rfl, extract_links_terminates_on_acyclic oneLeafSitemapEnv
    "https://z.test/sitemap.xml" oneLeafTree rfl⟩

/-- Counterexample for **C3** as stated: under a self-referential sitemap
index (every fetch returns an index pointing back at the same sitemap
URL), the recursion exceeds every depth bound — the unguarded Python
recursion never returns. -/
theorem extract_links_cyclic_diverges :
    ExtractDiverges cyclicSitemapEnv "https://x.test/sitemap.xml" := by
  intro n
  induction n with
  | zero => rfl
  | succ m ih =>
    simp [extract_links_from_sitemap, cyclicSitemapEnv, extractChildren, ih]

/-- **C4**: on an acyclic sitemap tree, extraction returns exactly the
concatenation, in document order, of all leaf `<url><loc>` values across
the tree; `<url>` entries lacking a `<loc>` are omitted without shifting
subsequent entries, and duplicates across merged sub-sitemaps are
preserved. -/
theorem extract_links_concatenation (env : String → Option XmlDoc)
    (url : String) (t : SitemapTree) (n : Nat)
    (h : Represents env url t) (hn : treeDepth t < n) :
    extract_links_from_sitemap env n url = some (treeLinks t) :=
  extract_aux env n url t h hn

/-- Witness for **C4**: an index of two leaf sitemaps with 2 and 3 URLs
(one URL common to both, one `<sitemap>` entry and one `<url>` entry
lacking a `<loc>`): extraction returns the 5 URLs in document order,
with the duplicate preserved. -/
theorem extract_links_concatenation_witness :
    Represents twoLeafSitemapEnv "https://x.test/sitemap_index.xml"
        twoLeafTree ∧
    treeDepth twoLeafTree < 2 ∧
    extract_links_from_sitemap twoLeafSitemapEnv 2
        "https://x.test/sitemap_index.xml" =
      some ["https://x.test/a", "https://x.test/b", "https://x.test/b",
        "https://x.test/c", "https://x.test/d"] := by
  have hrep : Represents twoLeafSitemapEnv "https://x.test/sitemap_index.xml"
      twoLeafTree := ⟨rfl, rfl, trivial⟩
  exact ⟨hrep, by decide,
    (extract_links_concatenation twoLeafSitemapEnv
      "https://x.test/sitemap_index.xml" twoLeafTree 2 hrep
      (by decide)).trans (by decide)⟩

/-- **C5** (amended): `count_internal_links` is total (it returns a count
for every input), and a fetch exception, a non-200 response, or a
document with *no content region at all* (no `article`, no `main` and no
`body`) each yield a count of 0.  A body-less document that still has an
`article` or `main` content region is counted normally (see the
counterexample). -/
theorem count_internal_links_failure_zero (env : String → FetchOutcome)
    (pageUrl : String) (targets : List String)
    (h : env pageUrl = .error ∨
      (∃ st doc, env pageUrl = .ok st doc ∧ st ≠ 200) ∨
      (∃ doc, env pageUrl = .ok 200 doc ∧ contentArea doc = none)) :
    count_internal_links env pageUrl targets = 0 := by
  rcases h with h | ⟨st, doc, h, hst⟩ | ⟨doc, h, hca⟩
  · simp [count_internal_links, h]
  · simp [count_internal_links, h, hst]
  · simp [count_internal_links, h, hca]

/-- Witness for **C5**: a URL whose fetch raises. -/
theorem count_internal_links_failure_zero_witness :
    articleNoBodyEnv "https://e.com/q" = .error ∧
    count_internal_links articleNoBodyEnv "https://e.com/q" ["e.com"] = 0 :=
  ⟨rfl, count_internal_links_failure_zero articleNoBodyEnv "https://e.com/q"
    ["e.com"] (Or.inl rfl)⟩

/-- Counterexample for **C5** as stated: a 200 response whose document
has no `<body>` element anywhere, but does have an `<article>` holding
one internal link — the count is 1, not 0. -/
theorem count_internal_links_no_body_counterexample :
    findTagL "body" articleNoBodyDoc = none ∧
    articleNoBodyEnv "https://e.com/p" = .ok 200 articleNoBodyDoc ∧
    count_internal_links articleNoBodyEnv "https://e.com/p" ["e.com"] = 1 :=
  ⟨rfl, rfl, by decide⟩

/-- **C6**: links inside a descendant of the content area whose tag is in
the exclusion set are never counted: the count equals the count computed
from the collector that contributes nothing from any excluded subtree,
however deeply nested inside content-bearing ancestors. -/
theorem count_internal_links_excluded_removed (env : String → FetchOutcome)
    (pageUrl : String) (targets : List String) (doc : HtmlList) (area : Html)
    (hfetch : env pageUrl = .ok 200 doc)
    (harea : contentArea doc = some area) :
    count_internal_links env pageUrl targets =
      ((skipPageHrefs area).foldl (addLink pageUrl targets) []).length := by
  unfold count_internal_links
  rw [hfetch]
  simp only [harea]
  rw [pageHrefs_pruneH]
  simp

/-- Witness for **C6**: an `<article>` holding one direct link and a
`<nav>` with another link to the same domain; only the direct link is
counted. -/
theorem count_internal_links_excluded_removed_witness :
    navInArticleEnv "https://e.com/page" = .ok 200 navInArticleDoc ∧
    contentArea navInArticleDoc = some navInArticleArea ∧
    count_internal_links navInArticleEnv "https://e.com/page" ["e.com"] =
      ((skipPageHrefs navInArticleArea).foldl
        (addLink "https://e.com/page" ["e.com"]) []).length ∧
    count_internal_links navInArticleEnv "https://e.com/page" ["e.com"] = 1 :=
  ⟨rfl, rfl, count_internal_links_excluded_removed navInArticleEnv
    "https://e.com/page" ["e.com"] navInArticleDoc navInArticleArea rfl rfl,
    by decide⟩

/-- **C7**: when the robots.txt fetch returns 200 and some line starts,
case-insensitively, with `Sitemap:`, `get_sitemap_url` returns the
whitespace-trimmed remainder of the first such line after its first
colon — for every HEAD prober, i.e. without consulting the fallback
probes at all. -/
theorem get_sitemap_url_first_directive (get : String → Option (Nat × String))
    (head : String → Option Nat) (base_url body l : String)
    (hrob : get (robotsUrl base_url) = some (200, body))
    (hline : (pySplitlines body).find? isSitemapLine = some l) :
    get_sitemap_url get head base_url = some (pyStrip (afterFirstColon l)) := by
  unfold get_sitemap_url robotsDirective
  rw [hrob]
  simp [firstSitemapDirective, hline]

/-- Witness for **C7**: a robots.txt with a `Sitemap:` directive, probed
by a HEAD oracle that would answer 200 to everything — the directive
still wins. -/
theorem get_sitemap_url_first_directive_witness :
    robotsWithDirective (robotsUrl "https://x.test") =
      some (200, "User-agent: *\nSitemap: https://x.test/custom.xml\n") ∧
    (pySplitlines "User-agent: *\nSitemap: https://x.test/custom.xml\n").find?
        isSitemapLine = some "Sitemap: https://x.test/custom.xml" ∧
    get_sitemap_url robotsWithDirective (fun _ => some 200) "https://x.test" =
      some "https://x.test/custom.xml" := by
  refine ⟨by decide, by decide, ?_⟩
  exact (get_sitemap_url_first_directive robotsWithDirective (fun _ => some 200)
    "https://x.test" "User-agent: *\nSitemap: https://x.test/custom.xml\n"
    "Sitemap: https://x.test/custom.xml" (by decide) (by decide)).trans
    (by decide)

/-- **C8**: the analysis batch produces exactly one result entry per
submitted URL, counting multiplicity (the result URLs are a permutation
of the submitted list, and the batch length equals the submission
length), for every completion order of the worker pool; a task that
raises is recorded as a zero count for its URL instead of aborting the
batch. -/
theorem analysis_batch_complete (urls : List String)
    (outcome : Nat → Except Unit Nat) (completed : List (Nat × String))
    (hperm : completed.Perm urls.enum) :
    ((runBatch outcome completed).map Prod.fst).Perm urls ∧
    (runBatch outcome completed).length = urls.length ∧
    (∀ p ∈ completed, outcome p.1 = .error () →
      (p.2, 0) ∈ runBatch outcome completed) := by
  refine ⟨?_, ?_, ?_⟩
  · have hmap : (runBatch outcome completed).map Prod.fst
        = completed.map Prod.snd := by
      unfold runBatch
      rw [List.map_map]
      rfl
    rw [hmap]
    have hp := hperm.map Prod.snd
    rwa [List.enum_map_snd] at hp
  · unfold runBatch
    rw [List.length_map, hperm.length_eq, List.enum_length]
  · intro p hp herr
    unfold runBatch
    have hbe : batchEntry outcome p = (p.2, 0) := by
      unfold batchEntry
      rw [herr]
    exact hbe ▸ List.mem_map_of_mem _ hp

/-- Witness for **C8**: three submitted URLs (one twice), the second task
raising, drained in an order different from submission order. -/
theorem analysis_batch_complete_witness :
    batchCompleted.Perm batchUrls.enum ∧
    ((runBatch batchOutcome batchCompleted).map Prod.fst).Perm batchUrls ∧
    (runBatch batchOutcome batchCompleted).length = 3 ∧
    ("https://e.com/b", 0) ∈ runBatch batchOutcome batchCompleted := by
  have hperm : batchCompleted.Perm batchUrls.enum := by decide
  have h := analysis_batch_complete batchUrls batchOutcome batchCompleted hperm
  exact ⟨hperm, h.1, h.2.1.trans (by decide),
    h.2.2 (1, "https://e.com/b") (by decide) rfl⟩

/-- **C9**: `count_internal_links` is deterministic in its inputs — the
count depends only on the fetched content of the page itself and on the
target set viewed as a set: two environments agreeing on the page, and
two target lists with the same membership, yield the same count. -/
theorem count_internal_links_deterministic (env₁ env₂ : String → FetchOutcome)
    (pageUrl : String) (t₁ t₂ : List String)
    (henv : env₁ pageUrl = env₂ pageUrl)
    (ht : ∀ d, d ∈ t₁ ↔ d ∈ t₂) :
    count_internal_links env₁ pageUrl t₁ =
      count_internal_links env₂ pageUrl t₂ := by
  unfold count_internal_links
  rw [henv]
  cases env₂ pageUrl with
  | error => rfl
  | ok status doc =>
    by_cases hst : status = 200
    · subst hst
      simp only [ne_eq, not_true_eq_false, if_false]
      cases contentArea doc with
      | none => rfl
      | some area =>
        exact congrArg List.length (foldl_addLink_congr pageUrl ht _ _)
    · simp [hst]

/-- Witness for **C9**: the same page, with the target set given once
with and once without a duplicated entry. -/
theorem count_internal_links_deterministic_witness :
    count_internal_links detPageEnv "https://e.com/d" ["e.com", "e.com"] =
      count_internal_links detPageEnv "https://e.com/d" ["e.com"] :=
  count_internal_links_deterministic detPageEnv detPageEnv "https://e.com/d"
    ["e.com", "e.com"] ["e.com"] rfl (fun d => by simp)

/-- **C10**: the two resolver variants agree on the robots.txt path —
given a 200 robots.txt whose first `Sitemap:` line yields a directive,
both return that URL — but diverge on total failure: when robots.txt
yields no directive and every HEAD probe fails, `src/app.py` returns
`none` while `src/sitemap_extractor.py` returns the unverified
`urljoin(domain, '/sitemap.xml')` guess. -/
theorem resolver_variants_agree_and_diverge :
    (∀ (get : String → Option (Nat × String)) (head : String → Option Nat)
        (base_url body l : String),
      get (robotsUrl base_url) = some (200, body) →
      (pySplitlines body).find? isSitemapLine = some l →
      get_sitemap_url get head base_url = some (pyStrip (afterFirstColon l)) ∧
        se_get_sitemap_url get base_url = pyStrip (afterFirstColon l)) ∧
    (∀ (get : String → Option (Nat × String)) (head : String → Option Nat)
        (base_url : String),
      robotsDirective get base_url = none →
      (∀ u, head u ≠ some 200) →
      get_sitemap_url get head base_url = none ∧
        se_get_sitemap_url get base_url =
          urljoin (urlDomain base_url) "/sitemap.xml") := by
  constructor
  · intro get head base_url body l hrob hline
    have hdir : robotsDirective get base_url =
        some (pyStrip (afterFirstColon l)) := by
      unfold robotsDirective
      rw [hrob]
      simp [firstSitemapDirective, hline]
    constructor
    · unfold get_sitemap_url
      rw [hdir]
    · unfold se_get_sitemap_url
      rw [hdir]
  · intro get head base_url hdir hhead
    constructor
    · unfold get_sitemap_url
      rw [hdir]
      have hfind : common_paths.find?
          (fun p => head (urljoin (urlDomain base_url) p) == some 200)
            = none := by
        apply List.find?_eq_none.mpr
        intro p _
        simp only [beq_iff_eq]
        exact hhead _
      rw [hfind]
    · unfold se_get_sitemap_url
      rw [hdir]

/-- Witness for **C10**: agreement on a served directive, and divergence
(`none` versus the `/sitemap.xml` guess) when robots.txt answers 404 and
every probe raises. -/
theorem resolver_variants_agree_and_diverge_witness :
    get_sitemap_url robotsWithDirective2 headAllFail "https://y.test" =
      some "https://y.test/s.xml" ∧
    se_get_sitemap_url robotsWithDirective2 "https://y.test" =
      "https://y.test/s.xml" ∧
    get_sitemap_url robotsAll404 headAllFail "https://y.test" = none ∧
    se_get_sitemap_url robotsAll404 "https://y.test" =
      "https://y.test/sitemap.xml" := by
  have h1 := resolver_variants_agree_and_diverge.1 robotsWithDirective2
    headAllFail "https://y.test" "Sitemap: https://y.test/s.xml"
    "Sitemap: https://y.test/s.xml" (by decide) (by decide)
  have h2 := resolver_variants_agree_and_diverge.2 robotsAll404 headAllFail
    "https://y.test" (by decide) (fun u h => by simp [headAllFail] at h)
  exact ⟨h1.1.trans (by decide), h1.2.trans (by decide), h2.1,
    h2.2.trans (by decide)⟩
